import Mathlib

/-!
Verification of the `lambdadialogflow` Go package (holgerarendt/lambda-dialogflow).

The package adapts Dialogflow webhook requests arriving through an AWS API
gateway to application handlers registered by action name.  We give a shallow
embedding of the package's data model and operations:

* protobuf messages (`WebhookRequest`, `QueryResult`, `Struct`, `Value`,
  `WebhookResponse`, `Context`) become Lean structures; Go pointer fields that
  may be nil become `Option`;
* Go map lookup/assignment on string keys becomes association-list
  lookup/overwrite;
* Go panics (nil-pointer dereference on a direct field selection such as
  `w.req.QueryResult.Parameters` or `w.req.OriginalDetectIntentRequest.Payload`)
  become the `Except GoPanic` monad; protobuf getter methods (`GetFields`,
  `GetStringValue`, `GetNumberValue`) are nil-safe in the generated Go code and
  are therefore total here;
* the external `jsonpb.Unmarshal` decoder is abstracted as an
  `Except String WebhookRequest` input to `HandleRequest` (decode error or
  decoded message); the `jsonpb.Marshal` encoder is modelled by an executable
  JSON serializer `marshalResponse` that, like jsonpb, omits fields holding
  their default value;
* `base64.StdEncoding` is modelled by an executable encoder/decoder over byte
  lists (Go `[]byte`), permissive about non-canonical trailing padding bits as
  Go's non-Strict decoder is.
-/

namespace LambdaDialogflow

/-- A Go runtime panic observable in this package: dereferencing a nil
message pointer with a direct field selection. -/
inductive GoPanic where
  | nilDeref
  deriving DecidableEq

/-- Model of `google.protobuf.Value` (the tagged values held by `Struct`
fields).  `numberValue` carries a `Float`, matching protobuf's double; the
package never computes with it, only stores and retrieves it. -/
inductive Value where
  | nullValue
  | numberValue (n : Float)
  | stringValue (s : String)
  | boolValue (b : Bool)
  | structValue (fields : List (String × Value))
  | listValue (values : List Value)

/-- Model of `google.protobuf.Struct`: a string-keyed map of `Value`s.
The Go `Fields` map may itself be nil, distinct from the `*Struct`
pointer being nil, hence the inner `Option`. -/
structure StructPB where
  fields : Option (List (String × Value))

/-- Model of the nil-safe generated getter `(*Struct).GetFields`: a nil
struct pointer or a nil map both read as the empty map. -/
def StructPB.GetFields : Option StructPB → List (String × Value)
  | none => []
  | some s => s.fields.getD []

/-- Model of the nil-safe generated getter `(*Value).GetStringValue`:
the string payload when the kind is `stringValue`, otherwise `""`. -/
def Value.GetStringValue : Value → String
  | .stringValue s => s
  | _ => ""

/-- Model of the nil-safe generated getter `(*Value).GetNumberValue`:
the numeric payload when the kind is `numberValue`, otherwise `0`. -/
def Value.GetNumberValue : Value → Float
  | .numberValue n => n
  | _ => 0

/-- Model of `dialogflow.QueryResult` restricted to the fields this package
reads: `Action` and `Parameters` (a possibly-nil `*Struct`). -/
structure QueryResult where
  action : String
  parameters : Option StructPB

/-- Model of `dialogflow.OriginalDetectIntentRequest` restricted to the field
this package reads: `Payload` (a possibly-nil `*Struct`). -/
structure OriginalDetectIntentRequest where
  payload : Option StructPB

/-- Model of `dialogflow.WebhookRequest` restricted to the fields this package
reads.  `QueryResult` and `OriginalDetectIntentRequest` are pointer fields in
Go and may be nil after `jsonpb` decoding (absent JSON objects). -/
structure WebhookRequest where
  session : String
  queryResult : Option QueryResult
  originalDetectIntentRequest : Option OriginalDetectIntentRequest

/-- Model of `dialogflow.Context` restricted to the fields this package sets:
`Name` and `LifespanCount` (an int32; never computed with here). -/
structure Context where
  name : String
  lifespanCount : Int

/-- Model of `dialogflow.WebhookResponse` restricted to the fields this package
writes: `FulfillmentText`, `OutputContexts`, `Payload`. -/
structure WebhookResponse where
  fulfillmentText : String
  outputContexts : List Context
  payload : Option StructPB

/-- The zero `WebhookResponse` created by `&df.WebhookResponse\x7b\x7d` in
`newAgent`: empty text, nil context slice, nil payload. -/
def emptyResponse : WebhookResponse :=
  { fulfillmentText := "", outputContexts := [], payload := none }

/-- `Agent` pairs the decoded request with the in-progress response. -/
structure Agent where
  req : WebhookRequest
  res : WebhookResponse

/-- Go map assignment `fs[name] = v` on an association list: overwrite the
existing binding for `name`, or append a new one. -/
def setField (fs : List (String × Value)) (name : String) (v : Value) :
    List (String × Value) :=
  match fs with
  | [] => [(name, v)]
  | (k, w) :: rest =>
      if k = name then (k, v) :: rest else (k, w) :: setField rest name v

/-- Embedding of `Agent.Request`. -/
def Agent.Request (w : Agent) : WebhookRequest := w.req

/-- Embedding of `Agent.Response`. -/
def Agent.Response (w : Agent) : WebhookResponse := w.res

/-- Embedding of `Agent.Action`: `w.req.QueryResult.Action` selects a field of
the possibly-nil `QueryResult` pointer, so it panics when that pointer is
nil. -/
def Agent.Action (w : Agent) : Except GoPanic String :=
  match w.req.queryResult with
  | none => .error .nilDeref
  | some qr => .ok qr.action

/-- Embedding of `Agent.Session`: `w.req.Session` is a plain string field. -/
def Agent.Session (w : Agent) : String := w.req.session

/-- Embedding of `Agent.getField`: look `name` up in
`w.req.QueryResult.Parameters.GetFields()` and, when absent, in
`w.req.OriginalDetectIntentRequest.Payload.GetFields()`.  The two selections
`.QueryResult.Parameters` and `.OriginalDetectIntentRequest.Payload`
dereference possibly-nil pointers and panic when they are nil; the `GetFields`
calls are nil-safe. -/
def Agent.getField (w : Agent) (name : String) : Except GoPanic (Option Value) :=
  match w.req.queryResult with
  | none => .error .nilDeref
  | some qr =>
    match (StructPB.GetFields qr.parameters).lookup name with
    | some f => .ok (some f)
    | none =>
      match w.req.originalDetectIntentRequest with
      | none => .error .nilDeref
      | some odir => .ok ((StructPB.GetFields odir.payload).lookup name)

/-- Embedding of `Agent.GetStringParam`: `getField`, then `GetStringValue`
when the field is present, else `""`. -/
def Agent.GetStringParam (w : Agent) (name : String) : Except GoPanic String :=
  match w.getField name with
  | .error p => .error p
  | .ok (some f) => .ok f.GetStringValue
  | .ok none => .ok ""

/-- Embedding of `Agent.GetNumberParam`: `getField`, then `GetNumberValue`
when the field is present, else `0`. -/
def Agent.GetNumberParam (w : Agent) (name : String) : Except GoPanic Float :=
  match w.getField name with
  | .error p => .error p
  | .ok (some f) => .ok f.GetNumberValue
  | .ok none => .ok 0

/-- Embedding of `Agent.Say`: set `FulfillmentText`. -/
def Agent.Say (w : Agent) (someText : String) : Agent :=
  { w with res := { w.res with fulfillmentText := someText } }

/-- Embedding of `Agent.SetContext`: append one `Context` with the given name
and lifespan to `OutputContexts`. -/
def Agent.SetContext (w : Agent) (contextname : String) (lifetime : Int) : Agent :=
  { w with res :=
      { w.res with outputContexts :=
          w.res.outputContexts ++ [{ name := contextname, lifespanCount := lifetime }] } }

/-- Embedding of `Agent.AddPayload`: store a string-typed value under `name`
in the response payload.  When the payload struct and its fields map already
exist, assign into the map; otherwise replace the payload with a fresh
one-entry struct, exactly as the Go branch does. -/
def Agent.AddPayload (w : Agent) (name value : String) : Agent :=
  let stringValue := Value.stringValue value
  match w.res.payload with
  | some p =>
    match p.fields with
    | some fs =>
        { w with res := { w.res with payload := some ⟨some (setField fs name stringValue)⟩ } }
    | none =>
        { w with res := { w.res with payload := some ⟨some [(name, stringValue)]⟩ } }
  | none =>
      { w with res := { w.res with payload := some ⟨some [(name, stringValue)]⟩ } }

/-! Base64 (`encoding/base64`, `StdEncoding`) modelled over byte lists. -/

/-- The standard base64 alphabet: the ASCII code of the character for a 6-bit
group (A-Z, a-z, 0-9, `+`, `/`). -/
def b64Char (n : Nat) : Nat :=
  if n < 26 then 65 + n
  else if n < 52 then 97 + (n - 26)
  else if n < 62 then 48 + (n - 52)
  else if n = 62 then 43
  else 47

/-- Inverse of the base64 alphabet: the 6-bit group for an ASCII code, `none`
for any code outside the alphabet (including the padding character `=`, 61). -/
def b64Index (c : Nat) : Option Nat :=
  if 65 ≤ c ∧ c ≤ 90 then some (c - 65)
  else if 97 ≤ c ∧ c ≤ 122 then some (c - 97 + 26)
  else if 48 ≤ c ∧ c ≤ 57 then some (c - 48 + 52)
  else if c = 43 then some 62
  else if c = 47 then some 63
  else none

/-- Model of `base64.StdEncoding` encoding on bytes: each 3-byte group becomes
four alphabet codes; a trailing 1- or 2-byte group is padded with `=` (61). -/
def encodeBytes : List Nat → List Nat
  | [] => []
  | [b1] => [b64Char (b1 / 4), b64Char (b1 % 4 * 16), 61, 61]
  | [b1, b2] => [b64Char (b1 / 4), b64Char (b1 % 4 * 16 + b2 / 16),
                 b64Char (b2 % 16 * 4), 61]
  | b1 :: b2 :: b3 :: rest =>
      b64Char (b1 / 4) :: b64Char (b1 % 4 * 16 + b2 / 16) ::
      b64Char (b2 % 16 * 4 + b3 / 64) :: b64Char (b3 % 64) :: encodeBytes rest

/-- Model of `base64.StdEncoding` decoding on ASCII codes: groups of four
codes, padding allowed only in the final group; like Go's non-Strict decoder it
does not reject non-zero trailing padding bits.  `none` models a decode
error. -/
def decodeBytes : List Nat → Option (List Nat)
  | [] => some []
  | c1 :: c2 :: c3 :: c4 :: rest =>
      if rest = [] ∧ c3 = 61 ∧ c4 = 61 then do
        let n1 ← b64Index c1
        let n2 ← b64Index c2
        some [n1 * 4 + n2 / 16]
      else if rest = [] ∧ c4 = 61 then do
        let n1 ← b64Index c1
        let n2 ← b64Index c2
        let n3 ← b64Index c3
        some [n1 * 4 + n2 / 16, n2 % 16 * 16 + n3 / 4]
      else do
        let n1 ← b64Index c1
        let n2 ← b64Index c2
        let n3 ← b64Index c3
        let n4 ← b64Index c4
        let tail ← decodeBytes rest
        some ((n1 * 4 + n2 / 16) :: (n2 % 16 * 16 + n3 / 4) :: (n3 % 4 * 64 + n4) :: tail)
  | _ => none

/-- The bytes of a Go string (`[]byte(s)`): its UTF-8 encoding. -/
def strBytes (s : String) : List Nat :=
  s.toUTF8.toList.map UInt8.toNat

/-- Model of `base64.StdEncoding.EncodeToString`: encode the bytes and read
the resulting ASCII codes as a string. -/
def EncodeToString (bs : List Nat) : String :=
  String.mk ((encodeBytes bs).map Char.ofNat)

/-- Model of `base64.StdEncoding.DecodeString`: read the string's characters
as ASCII codes and decode. -/
def DecodeString (s : String) : Option (List Nat) :=
  decodeBytes (s.data.map Char.toNat)

/-- Embedding of `Agent.AddJSONPayloadBase64`: base64-encode the value's bytes
and delegate to `AddPayload`. -/
def Agent.AddJSONPayloadBase64 (w : Agent) (name value : String) : Agent :=
  let encoded := EncodeToString (strBytes value)
  w.AddPayload name encoded

/-! The outbound serializer, modelling `jsonpb.Marshaler` with default
options: lowerCamelCase JSON names, default-valued fields omitted, fields in
proto field-number order. -/

/-- JSON string escaping for the serializer: quote, backslash and control
characters are escaped, everything else passes through. -/
def jsonEscapeChar (c : Char) : String :=
  if c = '"' then "\\\""
  else if c = '\\' then "\\\\"
  else if c = '\n' then "\\n"
  else if c = '\r' then "\\r"
  else if c = '\t' then "\\t"
  else if c.toNat < 32 then
    "\\u00" ++ String.mk [Nat.digitChar (c.toNat / 16), Nat.digitChar (c.toNat % 16)]
  else String.singleton c

/-- A JSON string literal: escaped and double-quoted. -/
def jsonQuote (s : String) : String :=
  "\"" ++ String.join (s.data.map jsonEscapeChar) ++ "\""

/-- Comma-join a list of already-serialized JSON fragments. -/
def joinComma : List String → String
  | [] => ""
  | [s] => s
  | s :: rest => s ++ "," ++ joinComma rest

mutual

/-- JSON serialization of a protobuf `Value`, as jsonpb renders it. -/
def marshalValue : Value → String
  | .nullValue => "null"
  | .numberValue n => toString n
  | .stringValue s => jsonQuote s
  | .boolValue b => if b then "true" else "false"
  | .structValue fs => "\x7b" ++ marshalFields fs ++ "\x7d"
  | .listValue vs => "[" ++ marshalList vs ++ "]"

/-- JSON serialization of the field list of a struct value. -/
def marshalFields : List (String × Value) → String
  | [] => ""
  | [(k, v)] => jsonQuote k ++ ":" ++ marshalValue v
  | (k, v) :: rest => jsonQuote k ++ ":" ++ marshalValue v ++ "," ++ marshalFields rest

/-- JSON serialization of the element list of a list value. -/
def marshalList : List Value → String
  | [] => ""
  | [v] => marshalValue v
  | v :: rest => marshalValue v ++ "," ++ marshalList rest

end

/-- JSON serialization of a `Struct` (its fields object). -/
def marshalStruct (p : StructPB) : String :=
  "\x7b" ++ marshalFields (p.fields.getD []) ++ "\x7d"

/-- JSON serialization of a `Context`: `name` (field 1) then `lifespanCount`
(field 2), defaults omitted. -/
def marshalContext (c : Context) : String :=
  "\x7b" ++
    joinComma
      ((if c.name = "" then [] else [jsonQuote "name" ++ ":" ++ jsonQuote c.name]) ++
       (if c.lifespanCount = 0 then []
        else [jsonQuote "lifespanCount" ++ ":" ++ toString c.lifespanCount])) ++
  "\x7d"

/-- Model of `jsonpb.Marshaler.Marshal` on a `WebhookResponse`: emit
`fulfillmentText` (field 1), `payload` (field 4) and `outputContexts`
(field 5) in that order, omitting each when it holds its default value.
jsonpb can only fail on invalid proto values, which the typed setters cannot
produce, so the model is total and the Go 500 branch is dead. -/
def marshalResponse (r : WebhookResponse) : String :=
  "\x7b" ++
    joinComma
      ((if r.fulfillmentText = "" then []
        else [jsonQuote "fulfillmentText" ++ ":" ++ jsonQuote r.fulfillmentText]) ++
       (match r.payload with
        | none => []
        | some p => [jsonQuote "payload" ++ ":" ++ marshalStruct p]) ++
       (if r.outputContexts.isEmpty then []
        else [jsonQuote "outputContexts" ++ ":[" ++
              joinComma (r.outputContexts.map marshalContext) ++ "]"])) ++
  "\x7d"

/-! The dispatch loop. -/

/-- Model of `events.APIGatewayProxyResponse` restricted to the fields this
package sets.  The Go zero value has status 0, empty body, nil headers. -/
structure APIGatewayProxyResponse where
  statusCode : Int
  isBase64Encoded : Bool
  body : String
  headers : List (String × String)

/-- A webhook handler, as registered by the application: it receives the
`Agent` and mutates it through the `Agent` methods. -/
def WebhookHandler := Agent → Agent

/-- The handler registry `handlerMap`, modelled as a function map with Go map
semantics (`none` for a missing key). -/
def HandlerMap := String → Option WebhookHandler

/-- Embedding of `Register`: Go map assignment `handlerMap[action] = handler`,
overwriting any previous binding. -/
def Register (handlerMap : HandlerMap) (action : String) (handler : WebhookHandler) :
    HandlerMap :=
  fun a => if a = action then some handler else handlerMap a

/-- Embedding of `newAgent`: wrap the decoded request with a zero
`WebhookResponse`; the returned error is always nil. -/
def newAgent (webhookRequest : WebhookRequest) : Agent × Option String :=
  ({ req := webhookRequest, res := emptyResponse }, none)

/-- Embedding of `HandleRequest`.  The `jsonpb.Unmarshal` call on the gateway
body is abstracted as the `decoded` argument (`.error` when the body is not
well-formed JSON or mismatches the schema, `.ok` with the decoded message
otherwise); the registry is passed explicitly.  The result pairs the gateway
response with the returned Go `error` (`none` for nil), inside `Except GoPanic`
because reading the action dereferences the possibly-nil `QueryResult`. -/
def HandleRequest (handlerMap : HandlerMap)
    (decoded : Except String WebhookRequest) :
    Except GoPanic (APIGatewayProxyResponse × Option String) :=
  match decoded with
  | .error e =>
      .ok ({ statusCode := 400, isBase64Encoded := false, body := "", headers := [] },
           some ("unable to decode webhook request: " ++ e))
  | .ok webhookRequest =>
      let w := (newAgent webhookRequest).1
      match w.Action with
      | .error p => .error p
      | .ok action =>
        match handlerMap action with
        | none =>
            .ok ({ statusCode := 404, isBase64Encoded := false, body := "", headers := [] },
                 some ("no handler defined for action: " ++ action))
        | some webhookHandler =>
            let w := webhookHandler w
            let body := marshalResponse w.res
            .ok ({ statusCode := 200, isBase64Encoded := false, body := body,
                   headers := [("Content-Type", "application/json")] },
                 none)

/-! Helper lemmas. -/

/-- Decoding inverts the base64 alphabet on 6-bit groups. -/
theorem b64Index_b64Char : ∀ n, n < 64 → b64Index (b64Char n) = some n := by decide

/-- No alphabet character is the padding character `=` (61). -/
theorem b64Char_ne_61 (n : Nat) : b64Char n ≠ 61 := by
  unfold b64Char; split_ifs <;> omega

/-- Alphabet characters are ASCII. -/
theorem b64Char_lt_128 (n : Nat) : b64Char n < 128 := by
  unfold b64Char; split_ifs <;> omega

/-- Every code emitted by the base64 encoder is ASCII. -/
theorem encodeBytes_lt_128 : ∀ (bs : List Nat), ∀ c ∈ encodeBytes bs, c < 128
  | [] => by simp [encodeBytes]
  | [b1] => by
      simp only [encodeBytes, List.mem_cons, List.not_mem_nil, or_false]
      rintro c (rfl | rfl | rfl | rfl) <;> first | exact b64Char_lt_128 _ | omega
  | [b1, b2] => by
      simp only [encodeBytes, List.mem_cons, List.not_mem_nil, or_false]
      rintro c (rfl | rfl | rfl | rfl) <;> first | exact b64Char_lt_128 _ | omega
  | b1 :: b2 :: b3 :: rest => by
      simp only [encodeBytes, List.mem_cons]
      rintro c (rfl | rfl | rfl | rfl | hc)
      · exact b64Char_lt_128 _
      · exact b64Char_lt_128 _
      · exact b64Char_lt_128 _
      · exact b64Char_lt_128 _
      · exact encodeBytes_lt_128 rest c hc

/-- The base64 decoder inverts the encoder on byte lists. -/
theorem decodeBytes_encodeBytes : ∀ (bs : List Nat), (∀ b ∈ bs, b < 256) →
    decodeBytes (encodeBytes bs) = some bs
  | [], _ => rfl
  | [b1], h => by
      have hb1 : b1 < 256 := h b1 (by simp)
      rw [encodeBytes, decodeBytes, if_pos ⟨rfl, rfl, rfl⟩,
          b64Index_b64Char _ (by omega), b64Index_b64Char _ (by omega)]
      simp only [Option.bind_eq_bind, Option.some_bind, Option.some.injEq, List.cons.injEq,
        and_true]
      omega
  | [b1, b2], h => by
      have hb1 : b1 < 256 := h b1 (by simp)
      have hb2 : b2 < 256 := h b2 (by simp)
      rw [encodeBytes, decodeBytes,
          if_neg (fun hc => b64Char_ne_61 _ hc.2.1), if_pos ⟨rfl, rfl⟩,
          b64Index_b64Char _ (by omega), b64Index_b64Char _ (by omega),
          b64Index_b64Char _ (by omega)]
      simp only [Option.bind_eq_bind, Option.some_bind, Option.some.injEq, List.cons.injEq,
        and_true]
      omega
  | b1 :: b2 :: b3 :: rest, h => by
      have hb1 : b1 < 256 := h b1 (by simp)
      have hb2 : b2 < 256 := h b2 (by simp)
      have hb3 : b3 < 256 := h b3 (by simp)
      have htail : ∀ b ∈ rest, b < 256 := fun b hb => h b (by simp [hb])
      rw [encodeBytes, decodeBytes,
          if_neg (fun hc => b64Char_ne_61 _ hc.2.1),
          if_neg (fun hc => b64Char_ne_61 _ hc.2),
          b64Index_b64Char _ (by omega), b64Index_b64Char _ (by omega),
          b64Index_b64Char _ (by omega), b64Index_b64Char _ (by omega),
          decodeBytes_encodeBytes rest htail]
      simp only [Option.bind_eq_bind, Option.some_bind, Option.some.injEq, List.cons.injEq,
        and_true]
      refine ⟨by omega, by omega, by omega⟩

/-- Reading a character written from an ASCII code gives the code back. -/
theorem char_toNat_ofNat (n : Nat) (h : n < 128) : (Char.ofNat n).toNat = n := by
  have hv : Nat.isValidChar n := Or.inl (by omega)
  simp [Char.ofNat, Char.ofNatAux, hv, Char.toNat, UInt32.ofNatCore, UInt32.toNat,
    BitVec.toNat_ofNatLt]

/-- Go string bytes are bytes. -/
theorem strBytes_lt (s : String) : ∀ b ∈ strBytes s, b < 256 := by
  intro b hb
  simp only [strBytes, List.mem_map] at hb
  obtain ⟨x, -, rfl⟩ := hb
  have := UInt8.toNat_lt x
  omega

/-- `DecodeString` inverts `EncodeToString` on byte lists. -/
theorem decodeString_encodeToString (bs : List Nat) (h : ∀ b ∈ bs, b < 256) :
    DecodeString (EncodeToString bs) = some bs := by
  unfold DecodeString EncodeToString
  have hdata : (String.mk ((encodeBytes bs).map Char.ofNat)).data
      = (encodeBytes bs).map Char.ofNat := rfl
  rw [hdata, List.map_map]
  have hascii : ∀ (l : List Nat), (∀ c ∈ l, c < 128) →
      List.map (Char.toNat ∘ Char.ofNat) l = l := by
    intro l hl
    induction l with
    | nil => rfl
    | cons a t ih =>
        simp only [List.map_cons, Function.comp_apply, List.cons.injEq]
        exact ⟨char_toNat_ofNat a (hl a (by simp)),
               ih (fun c hc => hl c (by simp [hc]))⟩
  rw [hascii (encodeBytes bs) (encodeBytes_lt_128 bs)]
  exact decodeBytes_encodeBytes bs h

/-- Go map assignment then lookup on the same key gives the assigned value. -/
theorem lookup_setField (fs : List (String × Value)) (name : String) (v : Value) :
    (setField fs name v).lookup name = some v := by
  induction fs with
  | nil => simp [setField, List.lookup]
  | cons hd tl ih =>
      obtain ⟨k, w⟩ := hd
      by_cases hk : k = name
      · subst hk; simp [setField, List.lookup]
      · have hk' : (name == k) = false := by
          simp only [beq_eq_false_iff_ne, ne_eq]
          exact fun hh => hk hh.symm
        simp [setField, hk, List.lookup, hk', ih]

/-! Claim theorems. -/

/-- C1 (counterexample): `GetStringParam`/`GetNumberParam` are not total.  On a
request whose `queryResult` is present (empty parameters) but whose
`originalDetectIntentRequest` is nil — the shape of the spec's own concrete
scenario — looking up an absent name dereferences the nil
`OriginalDetectIntentRequest` pointer and panics instead of returning the zero
value. -/
theorem getParam_panics_on_nil_originalPayload :
    Agent.GetStringParam
        { req := { session := "s1",
                   queryResult := some { action := "hello", parameters := some ⟨some []⟩ },
                   originalDetectIntentRequest := none },
          res := emptyResponse } "x" = .error .nilDeref
    ∧ Agent.GetNumberParam
        { req := { session := "s1",
                   queryResult := some { action := "hello", parameters := some ⟨some []⟩ },
                   originalDetectIntentRequest := none },
          res := emptyResponse } "x" = .error .nilDeref :=
  ⟨rfl, rfl⟩

/-- C1 (amended): on every request whose `queryResult` and
`originalDetectIntentRequest` messages are both present, `GetStringParam` and
`GetNumberParam` never fail: they return the string/number reading of the
two-tier lookup (`parameters` first, then the original payload), which is the
empty string / `0` when the name is absent from both or bound to a value of
the wrong type. -/
theorem getParam_total_when_submessages_present (w : Agent) (qr : QueryResult)
    (odir : OriginalDetectIntentRequest) (name : String)
    (hqr : w.req.queryResult = some qr)
    (hodir : w.req.originalDetectIntentRequest = some odir) :
    w.GetStringParam name
      = .ok ((((StructPB.GetFields qr.parameters).lookup name).or
                ((StructPB.GetFields odir.payload).lookup name)).elim ""
              Value.GetStringValue)
    ∧ w.GetNumberParam name
      = .ok ((((StructPB.GetFields qr.parameters).lookup name).or
                ((StructPB.GetFields odir.payload).lookup name)).elim 0
              Value.GetNumberValue) := by
  cases hp : (StructPB.GetFields qr.parameters).lookup name with
  | some v =>
      constructor <;>
        simp [Agent.GetStringParam, Agent.GetNumberParam, Agent.getField, hqr, hp, Option.or]
  | none =>
      cases hq : (StructPB.GetFields odir.payload).lookup name with
      | some v =>
          constructor <;>
            simp [Agent.GetStringParam, Agent.GetNumberParam, Agent.getField, hqr, hodir,
              hp, hq, Option.or]
      | none =>
          constructor <;>
            simp [Agent.GetStringParam, Agent.GetNumberParam, Agent.getField, hqr, hodir,
              hp, hq, Option.or]

/-- C1 (witness): on a request carrying both messages, with `"x"` absent from
both maps, the parameter getters return `""` and `0`. -/
theorem getParam_total_when_submessages_present_witness :
    Agent.GetStringParam
        { req := { session := "s1",
                   queryResult := some { action := "hello", parameters := some ⟨some []⟩ },
                   originalDetectIntentRequest := some { payload := some ⟨some []⟩ } },
          res := emptyResponse } "x" = .ok ""
    ∧ Agent.GetNumberParam
        { req := { session := "s1",
                   queryResult := some { action := "hello", parameters := some ⟨some []⟩ },
                   originalDetectIntentRequest := some { payload := some ⟨some []⟩ } },
          res := emptyResponse } "x" = .ok 0 :=
  getParam_total_when_submessages_present
    { req := { session := "s1",
               queryResult := some { action := "hello", parameters := some ⟨some []⟩ },
               originalDetectIntentRequest := some { payload := some ⟨some []⟩ } },
      res := emptyResponse }
    { action := "hello", parameters := some ⟨some []⟩ }
    { payload := some ⟨some []⟩ } "x" rfl rfl

/-- C2: when the decoded request carries a `queryResult` whose action has a
registered handler, `HandleRequest` returns status 200 with the
`Content-Type: application/json` header, a nil error, and a body that is
exactly the serialization of the handler's mutations applied to the
default-initialized empty response. -/
theorem handleRequest_success (hmap : HandlerMap) (req : WebhookRequest)
    (qr : QueryResult) (handler : WebhookHandler)
    (hqr : req.queryResult = some qr) (hh : hmap qr.action = some handler) :
    HandleRequest hmap (.ok req)
      = .ok ({ statusCode := 200, isBase64Encoded := false,
               body := marshalResponse ((handler { req := req, res := emptyResponse }).res),
               headers := [("Content-Type", "application/json")] }, none) := by
  simp [HandleRequest, newAgent, Agent.Action, hqr, hh]

/-- C2 (witness): dispatching the spec's concrete scenario — a request with
action `"hello"` and a handler that says `"Hello, Ada"` — returns 200,
the JSON content type, the serialized fulfillment text, and a nil error. -/
theorem handleRequest_success_witness :
    HandleRequest
        (fun a => if a = "hello" then some (fun w => w.Say "Hello, Ada") else none)
        (.ok { session := "s1",
               queryResult := some { action := "hello",
                                     parameters := some ⟨some [("name", .stringValue "Ada")]⟩ },
               originalDetectIntentRequest := none })
      = .ok ({ statusCode := 200, isBase64Encoded := false,
               body := "\x7b\"fulfillmentText\":\"Hello, Ada\"\x7d",
               headers := [("Content-Type", "application/json")] }, none) := by
  have h := handleRequest_success
      (fun a => if a = "hello" then some (fun w => w.Say "Hello, Ada") else none)
      { session := "s1",
        queryResult := some { action := "hello",
                              parameters := some ⟨some [("name", .stringValue "Ada")]⟩ },
        originalDetectIntentRequest := none }
      { action := "hello",
        parameters := some ⟨some [("name", .stringValue "Ada")]⟩ }
      (fun w => w.Say "Hello, Ada") rfl rfl
  simpa [marshalResponse, marshalStruct, joinComma, jsonQuote, jsonEscapeChar,
    Agent.Say, emptyResponse] using h

/-- C3: when the inbound body fails decoding, `HandleRequest` returns status
400 (empty body, no headers) with a non-nil error, and its result does not
depend on the handler registry: it equals the result under the empty
registry, so no registry read or handler invocation can matter. -/
theorem handleRequest_decode_failure (hmap : HandlerMap) (e : String) :
    HandleRequest hmap (.error e)
      = .ok ({ statusCode := 400, isBase64Encoded := false, body := "", headers := [] },
             some ("unable to decode webhook request: " ++ e))
    ∧ HandleRequest hmap (.error e) = HandleRequest (fun _ => none) (.error e) :=
  ⟨rfl, rfl⟩

/-- C4: when the decoded request's action has no registered handler,
`HandleRequest` returns status 404 (empty body, no headers) with a non-nil
error and invokes no handler. -/
theorem handleRequest_no_handler (hmap : HandlerMap) (req : WebhookRequest)
    (qr : QueryResult)
    (hqr : req.queryResult = some qr) (hh : hmap qr.action = none) :
    HandleRequest hmap (.ok req)
      = .ok ({ statusCode := 404, isBase64Encoded := false, body := "", headers := [] },
             some ("no handler defined for action: " ++ qr.action)) := by
  simp [HandleRequest, newAgent, Agent.Action, hqr, hh]

/-- C4 (witness): the empty registry maps a request with action
`"unregistered"` to status 404 and a non-nil error. -/
theorem handleRequest_no_handler_witness :
    HandleRequest (fun _ => none)
        (.ok { session := "s1",
               queryResult := some { action := "unregistered", parameters := none },
               originalDetectIntentRequest := none })
      = .ok ({ statusCode := 404, isBase64Encoded := false, body := "", headers := [] },
             some ("no handler defined for action: unregistered")) := by
  have h := handleRequest_no_handler (fun _ => none)
      { session := "s1",
        queryResult := some { action := "unregistered", parameters := none },
        originalDetectIntentRequest := none }
      { action := "unregistered", parameters := none } rfl rfl
  simpa using h

/-- C5: parameter lookup is two-tier with `parameters` taking precedence.
Over an arbitrary `originalDetectIntentRequest` field: when the name is bound
in `parameters` (to a value of any type), `getField` returns that binding and
the getters read it — the result never depends on the original payload, and a
type mismatch yields the zero value rather than a fallback; only when the
name is absent from `parameters` is the original payload consulted (which
dereferences its possibly-nil pointer). -/
theorem getParam_two_tier (session : String) (qr : QueryResult)
    (odirOpt : Option OriginalDetectIntentRequest) (res : WebhookResponse)
    (name : String) :
    let w : Agent := { req := { session := session, queryResult := some qr,
                                originalDetectIntentRequest := odirOpt },
                       res := res }
    (((StructPB.GetFields qr.parameters).lookup name).isSome →
        w.getField name = .ok ((StructPB.GetFields qr.parameters).lookup name)
        ∧ w.GetStringParam name
            = .ok ((((StructPB.GetFields qr.parameters).lookup name).map
                      Value.GetStringValue).getD "")
        ∧ w.GetNumberParam name
            = .ok ((((StructPB.GetFields qr.parameters).lookup name).map
                      Value.GetNumberValue).getD 0))
    ∧ ((StructPB.GetFields qr.parameters).lookup name = none →
        w.getField name
          = match odirOpt with
            | none => .error .nilDeref
            | some odir => .ok ((StructPB.GetFields odir.payload).lookup name)) := by
  constructor
  · intro hsome
    obtain ⟨v, hv⟩ := Option.isSome_iff_exists.1 hsome
    refine ⟨?_, ?_, ?_⟩ <;>
      simp [Agent.getField, Agent.GetStringParam, Agent.GetNumberParam, hv]
  · intro hnone
    cases odirOpt <;> simp [Agent.getField, hnone]

/-- C5 (witness): with `"p"` bound to a string in `parameters` and a nil
`originalDetectIntentRequest`, the getters use the `parameters` entry (and do
not touch the original payload, which would panic). -/
theorem getParam_two_tier_witness :
    Agent.GetStringParam
        { req := { session := "s1",
                   queryResult := some { action := "hello",
                                         parameters := some ⟨some [("p", .stringValue "v")]⟩ },
                   originalDetectIntentRequest := none },
          res := emptyResponse } "p" = .ok "v" :=
  ((getParam_two_tier "s1"
      { action := "hello", parameters := some ⟨some [("p", .stringValue "v")]⟩ }
      none emptyResponse "p").1 rfl).2.1

/-- C6: `AddJSONPayloadBase64` stores under `name` the base64 encoding of the
value's bytes, and base64-decoding that stored field reproduces the value's
bytes exactly (round-trip law), for every agent, name and value. -/
theorem addJSONPayloadBase64_roundtrip (w : Agent) (name value : String) :
    (StructPB.GetFields (w.AddJSONPayloadBase64 name value).res.payload).lookup name
        = some (Value.stringValue (EncodeToString (strBytes value)))
    ∧ DecodeString (EncodeToString (strBytes value)) = some (strBytes value) := by
  constructor
  · unfold Agent.AddJSONPayloadBase64 Agent.AddPayload
    cases hp : w.res.payload with
    | none => simp [StructPB.GetFields, List.lookup]
    | some p =>
        cases hf : p.fields with
        | none => simp [hf, StructPB.GetFields, List.lookup]
        | some fs => simp [hf, StructPB.GetFields, lookup_setField]
  · exact decodeString_encodeToString (strBytes value) (strBytes_lt value)

/-- C7: `SetContext` only ever appends.  Folding any sequence of `SetContext`
calls over an agent leaves the prior entries untouched and adds one entry per
call, in call order, duplicates preserved — `n` calls add exactly `n`
entries. -/
theorem setContext_appends (w : Agent) (calls : List (String × Int)) :
    (calls.foldl (fun a p => a.SetContext p.1 p.2) w).res.outputContexts
      = w.res.outputContexts
        ++ calls.map (fun p => { name := p.1, lifespanCount := p.2 : Context }) := by
  induction calls generalizing w with
  | nil => simp
  | cons c cs ih =>
      rw [List.foldl_cons, ih]
      simp [Agent.SetContext, List.append_assoc]

/-- C8: registration is insert-or-overwrite with no error path; the last
registration for an action wins: after registering `h1` then `h2` for the
same action, the registry maps that action to `h2`, other actions are
unaffected, and dispatching a request with that action invokes `h2`. -/
theorem register_last_wins (m : HandlerMap) (a a' : String)
    (h1 h2 : WebhookHandler) (req : WebhookRequest) (qr : QueryResult)
    (hne : a' ≠ a) (hqr : req.queryResult = some qr) (hact : qr.action = a) :
    Register (Register m a h1) a h2 a = some h2
    ∧ Register (Register m a h1) a h2 a' = m a'
    ∧ HandleRequest (Register (Register m a h1) a h2) (.ok req)
        = .ok ({ statusCode := 200, isBase64Encoded := false,
                 body := marshalResponse ((h2 { req := req, res := emptyResponse }).res),
                 headers := [("Content-Type", "application/json")] }, none) := by
  refine ⟨by simp [Register], by simp [Register, hne], ?_⟩
  simp [HandleRequest, newAgent, Agent.Action, hqr, hact, Register]

/-- C8 (witness): after registering the identity handler then a greeting
handler for `"go"`, the registry holds the greeting handler for `"go"`, still
misses `"stop"`, and dispatching action `"go"` runs the greeting handler. -/
theorem register_last_wins_witness :
    Register (Register (fun _ => none) "go" (fun w => w)) "go" (fun w => w.Say "hi") "go"
        = some (fun w => w.Say "hi")
    ∧ Register (Register (fun _ => none) "go" (fun w => w)) "go" (fun w => w.Say "hi") "stop"
        = none
    ∧ HandleRequest (Register (Register (fun _ => none) "go" (fun w => w)) "go"
          (fun w => w.Say "hi"))
        (.ok { session := "s1",
               queryResult := some { action := "go", parameters := none },
               originalDetectIntentRequest := none })
        = .ok ({ statusCode := 200, isBase64Encoded := false,
                 body := marshalResponse
                   ((Agent.Say { req := { session := "s1",
                                          queryResult := some { action := "go",
                                                                parameters := none },
                                          originalDetectIntentRequest := none },
                                 res := emptyResponse } "hi").res),
                 headers := [("Content-Type", "application/json")] }, none) :=
  register_last_wins (fun _ => none) "go" "stop" (fun w => w) (fun w => w.Say "hi")
    { session := "s1",
      queryResult := some { action := "go", parameters := none },
      originalDetectIntentRequest := none }
    { action := "go", parameters := none }
    (by decide) rfl rfl

/-- C9: a decoded request with no `queryResult` makes `HandleRequest` fault
with a nil dereference while reading the action, before the registry is
consulted (the outcome is that of the empty registry), and such inputs are
not mapped to any status response. -/
theorem handleRequest_nil_queryResult (hmap : HandlerMap) (req : WebhookRequest)
    (hqr : req.queryResult = none) :
    HandleRequest hmap (.ok req) = .error .nilDeref
    ∧ HandleRequest hmap (.ok req) = HandleRequest (fun _ => none) (.ok req) := by
  constructor <;> simp [HandleRequest, newAgent, Agent.Action, hqr]

/-- C9 (witness): the schema-valid body decoding to a request with only a
session faults with a nil dereference under any registry. -/
theorem handleRequest_nil_queryResult_witness :
    HandleRequest (fun _ => some (fun w => w))
        (.ok { session := "s1", queryResult := none,
               originalDetectIntentRequest := none })
      = .error .nilDeref :=
  (handleRequest_nil_queryResult (fun _ => some (fun w => w))
    { session := "s1", queryResult := none, originalDetectIntentRequest := none } rfl).1

/-- C10: whenever `HandleRequest` returns normally with status 400 or 404 the
accompanying Go error is non-nil, and on the status-200 success path it is
nil. -/
theorem handleRequest_error_value (hmap : HandlerMap)
    (decoded : Except String WebhookRequest)
    (resp : APIGatewayProxyResponse) (errv : Option String)
    (h : HandleRequest hmap decoded = .ok (resp, errv)) :
    ((resp.statusCode = 400 ∨ resp.statusCode = 404) → errv.isSome = true)
    ∧ (resp.statusCode = 200 → errv = none) := by
  cases decoded with
  | error e =>
      simp only [HandleRequest, Except.ok.injEq, Prod.mk.injEq] at h
      obtain ⟨hr, he⟩ := h
      subst hr; subst he
      exact ⟨fun _ => rfl, fun hc => absurd hc (by decide)⟩
  | ok req =>
      cases hq : req.queryResult with
      | none =>
          rw [show HandleRequest hmap (.ok req) = .error .nilDeref by
            simp [HandleRequest, newAgent, Agent.Action, hq]] at h
          exact absurd h (by simp)
      | some qr =>
          cases hm : hmap qr.action with
          | none =>
              rw [show HandleRequest hmap (.ok req)
                    = .ok ({ statusCode := 404, isBase64Encoded := false, body := "",
                             headers := [] },
                           some ("no handler defined for action: " ++ qr.action)) by
                  simp [HandleRequest, newAgent, Agent.Action, hq, hm]] at h
              obtain ⟨hr, he⟩ := by
                simpa only [Except.ok.injEq, Prod.mk.injEq] using h
              subst hr; subst he
              exact ⟨fun _ => rfl, fun hc => absurd hc (by decide)⟩
          | some handler =>
              rw [show HandleRequest hmap (.ok req)
                    = .ok ({ statusCode := 200, isBase64Encoded := false,
                             body := marshalResponse
                               ((handler { req := req, res := emptyResponse }).res),
                             headers := [("Content-Type", "application/json")] }, none) by
                  simp [HandleRequest, newAgent, Agent.Action, hq, hm]] at h
              obtain ⟨hr, he⟩ := by
                simpa only [Except.ok.injEq, Prod.mk.injEq] using h
              subst hr; subst he
              exact ⟨fun hc => by simp at hc, fun _ => rfl⟩

/-- C10 (witness): on a decode failure the 400 response comes with a non-nil
error (and, vacuously, the nil-on-200 clause). -/
theorem handleRequest_error_value_witness :
    (((400 : Int) = 400 ∨ (400 : Int) = 404) →
        (some ("unable to decode webhook request: bad") : Option String).isSome = true)
    ∧ ((400 : Int) = 200 →
        (some ("unable to decode webhook request: bad") : Option String) = none) :=
  handleRequest_error_value (fun _ => none) (.error "bad")
    { statusCode := 400, isBase64Encoded := false, body := "", headers := [] }
    (some ("unable to decode webhook request: bad")) rfl

end LambdaDialogflow
